import Mathlib

/-!
Shallow embedding of the normalization core of the smhi_open_data repository
(files smhi_open_data/utils.py and smhi_open_data/client.py).

Modelling conventions:
* pandas DataFrames are modelled column-wise: a list of (column name, cells).
  Column assignment `df[n] = v` replaces the first column named `n` in place
  and otherwise appends a new column at the end, exactly as pandas does.
* a UTC instant is an integer count of microseconds since the Unix epoch
  (matching date2microseconds in utils.py); dates compare as integers.
* Python float() is modelled on its finite decimal-literal fragment
  (sign, digits, optional fraction, optional exponent, surrounding blanks);
  values such as inf or nan are outside the model, as are underscore
  separators.  All inputs exercised by the claims are in the fragment.
* fallible pandas operations (missing column, unparsable cell, bad index)
  return Except PdError instead of raising.
-/

/-- Split a character list on a separator, keeping empty fields,
mirroring Python str.split(sep). -/
def splitOnChar (sep : Char) : List Char → List (List Char)
  | [] => [[]]
  | c :: cs =>
    let r := splitOnChar sep cs
    if c = sep then [] :: r
    else
      match r with
      | [] => [[c]]
      | h :: t => (c :: h) :: t

/-- Value of a list of decimal digit characters. -/
def digitsVal (l : List Char) : Nat :=
  l.foldl (fun a c => a * 10 + (c.toNat - 48)) 0

/-- True when the list is a nonempty run of decimal digits. -/
def allDigits (l : List Char) : Bool :=
  !l.isEmpty && l.all (fun c => c.isDigit)

/-- Strip leading and trailing whitespace, as Python float() does. -/
def trimWs (l : List Char) : List Char :=
  ((l.dropWhile (fun c => c.isWhitespace)).reverse.dropWhile
    (fun c => c.isWhitespace)).reverse

/-- Parsed parts of a Python float literal: sign (1 or -1), integer-part
value, fractional-part value, fractional-part digit count, exponent. -/
abbrev FloatParts := ℤ × Nat × Nat × Nat × ℤ

/-- Exponent part of a Python float literal: optional sign then digits,
attached to already parsed mantissa parts. -/
def pyExpParts (sgn : ℤ) (ipv fpv fpl : Nat) (t : List Char) :
    Option FloatParts :=
  let st : ℤ × List Char := match t with
    | '+' :: u => (1, u)
    | '-' :: u => (-1, u)
    | u => (1, u)
  let ed := st.2.span (fun c => c.isDigit)
  if ed.1.isEmpty || !ed.2.isEmpty then none
  else some (sgn, ipv, fpv, fpl, st.1 * (digitsVal ed.1 : ℤ))

/-- Finite decimal-literal fragment of Python float(): sign, integer part,
optional fractional part, optional exponent.  Returns none exactly where
Python float() raises ValueError (within the modelled fragment). -/
def pyParts (cs : List Char) : Option FloatParts :=
  let sc : ℤ × List Char := match cs with
    | '+' :: t => (1, t)
    | '-' :: t => (-1, t)
    | t => (1, t)
  let ip := sc.2.span (fun c => c.isDigit)
  let fp : List Char × List Char := match ip.2 with
    | '.' :: t => t.span (fun c => c.isDigit)
    | t => ([], t)
  if ip.1.isEmpty && fp.1.isEmpty then none
  else
    match fp.2 with
    | [] => some (sc.1, digitsVal ip.1, digitsVal fp.1, fp.1.length, 0)
    | 'e' :: t => pyExpParts sc.1 (digitsVal ip.1) (digitsVal fp.1) fp.1.length t
    | 'E' :: t => pyExpParts sc.1 (digitsVal ip.1) (digitsVal fp.1) fp.1.length t
    | _ => none

/-- Rational value of parsed float parts. -/
def ratOfParts (x : FloatParts) : ℚ :=
  (x.1 : ℚ) * ((x.2.1 : ℚ) + (x.2.2.1 : ℚ) / (10 : ℚ) ^ x.2.2.2.1) *
    (10 : ℚ) ^ x.2.2.2.2

/-- Python float() on a string (modelled fragment). -/
def pyFloat (s : String) : Option ℚ :=
  (pyParts (trimWs s.toList)).map ratOfParts

/-- Leap year predicate (Gregorian). -/
def leapYear (y : Nat) : Bool :=
  (y % 4 == 0 && y % 100 != 0) || y % 400 == 0

/-- Length of a month (1-based). -/
def daysInMonth (leap : Bool) (m : Nat) : Nat :=
  match m with
  | 2 => if leap then 29 else 28
  | 4 => 30
  | 6 => 30
  | 9 => 30
  | 11 => 30
  | _ => 31

/-- Days from 1970-01-01 to the start of year y (model domain: y at least 1970). -/
def daysBeforeYear (y : Nat) : Nat :=
  (List.range (y - 1970)).foldl
    (fun a i => a + (if leapYear (1970 + i) then 366 else 365)) 0

/-- Days from the start of a year to the start of month m (1-based). -/
def daysBeforeMonth (leap : Bool) (m : Nat) : Nat :=
  (List.range (m - 1)).foldl (fun a i => a + daysInMonth leap (i + 1)) 0

/-- Day count since the Unix epoch of a civil date. -/
def daysSinceEpoch (y m d : Nat) : Nat :=
  daysBeforeYear y + daysBeforeMonth (leapYear y) m + (d - 1)

def usPerDay : Int := 86400000000

def usPerSecond : Int := 1000000

/-- Parse a YYYY-MM-DD date string to a UTC instant in microseconds since
epoch, mirroring pd.to_datetime(s, utc=True) on the date strings this
repository feeds it (model domain: years 1970 and later). -/
def parseDateYMD (s : String) : Option Int :=
  match splitOnChar '-' s.toList with
  | [ys, ms, ds] =>
    if allDigits ys && allDigits ms && allDigits ds then
      let y := digitsVal ys
      let m := digitsVal ms
      let d := digitsVal ds
      if 1970 ≤ y && 1 ≤ m && m ≤ 12 && 1 ≤ d && d ≤ 31 then
        some ((daysSinceEpoch y m d : Int) * usPerDay)
      else none
    else none
  | _ => none

/-- Parse an HH:MM:SS time-of-day string to a duration in microseconds,
mirroring pd.to_timedelta on the Tid (UTC) column. -/
def parseHMS (s : String) : Option Int :=
  match splitOnChar ':' s.toList with
  | [hs, ms, ss] =>
    if allDigits hs && allDigits ms && allDigits ss then
      let h := digitsVal hs
      let m := digitsVal ms
      let sec := digitsVal ss
      if h ≤ 23 && m ≤ 59 && sec ≤ 59 then
        some (((h * 3600 + m * 60 + sec : Nat) : Int) * usPerSecond)
      else none
    else none
  | _ => none

/-- A single DataFrame cell: a number, a raw string, or a UTC instant
(microseconds since epoch). -/
inductive Cell where
  | num (q : ℚ)
  | str (s : String)
  | instant (t : Int)
deriving DecidableEq

/-- Errors of the modelled pandas operations. -/
inductive PdError where
  | keyError (k : String)
  | indexError
  | parseError
  | notImplemented (p : String)
deriving DecidableEq

/-- A column: name and cells. -/
abbrev Col := String × List Cell

/-- Column-wise DataFrame model. -/
abbrev DataFrame := List Col

/-- Column lookup by name (df.name / df[name]): first matching column. -/
def dfGet : DataFrame → String → Except PdError (List Cell)
  | [], n => .error (.keyError n)
  | c :: cs, n => if c.1 = n then .ok c.2 else dfGet cs n

/-- Column assignment df[n] = v: replace the first column named n in place,
else append a new column at the end (pandas semantics). -/
def setCol : DataFrame → String → List Cell → DataFrame
  | [], n, v => [(n, v)]
  | c :: cs, n, v => if c.1 = n then (n, v) :: cs else c :: setCol cs n v

/-- Resolve a possibly negative positional index against a length. -/
def resolveIdx (len : Nat) (i : Int) : Int :=
  if i < 0 then (len : Int) + i else i

/-- Select a single column by (possibly negative) position. -/
def pickOne (df : DataFrame) (i : Int) : Except PdError Col :=
  if 0 ≤ resolveIdx df.length i then
    match df.get? (resolveIdx df.length i).toNat with
    | some c => .ok c
    | none => .error .indexError
  else .error .indexError

/-- df.iloc[:, idxs]: select columns by position, negative counted from
the end. -/
def ilocCols (df : DataFrame) : List Int → Except PdError DataFrame
  | [] => .ok []
  | i :: is =>
    match pickOne df i, ilocCols df is with
    | .ok c, .ok rest => .ok (c :: rest)
    | .error e, _ => .error e
    | .ok _, .error e => .error e

/-- df.columns = ns: rename all columns; lengths must agree. -/
def renameCols (df : DataFrame) (ns : List String) : Except PdError DataFrame :=
  if ns.length = df.length then .ok (List.zip ns (df.map Prod.snd))
  else .error .indexError

/-- Strict float coercion of one cell (astype(float)): numbers pass,
strings must parse, anything else fails. -/
def strictFloatCell : Cell → Option Cell
  | .num q => some (.num q)
  | .str s => (pyFloat s).map .num
  | .instant _ => none

/-- Apply a fallible cell transform across a column; fail if any cell does. -/
def traverseCells (f : Cell → Option Cell) : List Cell → Option (List Cell)
  | [] => some []
  | c :: cs =>
    match f c, traverseCells f cs with
    | some c2, some cs2 => some (c2 :: cs2)
    | _, _ => none

/-- Apply a fallible cell-to-instant transform across a column. -/
def traverseInts (f : Cell → Option Int) : List Cell → Option (List Int)
  | [] => some []
  | c :: cs =>
    match f c, traverseInts f cs with
    | some t, some ts => some (t :: ts)
    | _, _ => none

/-- pd.to_datetime(x, utc=True) on one cell holding a date string. -/
def toDatetimeCell : Cell → Option Int
  | .str s => parseDateYMD s
  | .instant t => some t
  | .num _ => none

/-- pd.to_datetime(x, unit=ms, utc=True) on one cell holding an
epoch-millisecond number. -/
def toDatetimeMsCell : Cell → Option Int
  | .num q => if q.den = 1 then some (q.num * 1000) else none
  | .instant t => some t
  | .str _ => none

/-- pd.to_timedelta on one cell holding a time-of-day string. -/
def toTimedeltaCell : Cell → Option Int
  | .str s => parseHMS s
  | _ => none

/-- df[n] = df[n].astype(float): strict coercion of a whole column. -/
def astypeFloat (df : DataFrame) (n : String) : Except PdError DataFrame :=
  match dfGet df n with
  | .error e => .error e
  | .ok col =>
    match traverseCells strictFloatCell col with
    | some v => .ok (setCol df n v)
    | none => .error .parseError

/-- ARCHIVED_PARAMETER_GROUP1 from utils.py: names of the instantaneous
parameters (Parameter.TemperaturePast1h.name, Parameter.Humidity.name). -/
def ARCHIVED_PARAMETER_GROUP1 : List String :=
  ["TemperaturePast1h", "Humidity"]

/-- ARCHIVED_PARAMETER_GROUP2 from utils.py: names of the 24h-accumulation
parameters (Parameter.PrecipPast24hAt06.name). -/
def ARCHIVED_PARAMETER_GROUP2 : List String :=
  ["PrecipPast24hAt06"]

/-- json_to_dataframe from utils.py.  The input DataFrame stands for
pd.DataFrame(json_data); the parameter is identified by its name string. -/
def json_to_dataframe (df : DataFrame) (p : String) : Except PdError DataFrame :=
  if p ∈ ARCHIVED_PARAMETER_GROUP2 then
    match dfGet df "ref" with
    | .error e => .error e
    | .ok ref =>
      match traverseInts toDatetimeCell ref with
      | none => .error .parseError
      | some ds =>
        let df1 := setCol df "date" (ds.map Cell.instant)
        match dfGet df1 "value" with
        | .error e => .error e
        | .ok v =>
          match traverseCells strictFloatCell v with
          | none => .error .parseError
          | some fv => ilocCols (setCol df1 "value" fv) [-1, 3, 4]
  else
    match dfGet df "date" with
    | .error e => .error e
    | .ok d =>
      match traverseInts toDatetimeMsCell d with
      | none => .error .parseError
      | some ds =>
        let df1 := setCol df "date" (ds.map Cell.instant)
        match dfGet df1 "value" with
        | .error e => .error e
        | .ok v =>
          match traverseCells strictFloatCell v with
          | none => .error .parseError
          | some fv => .ok (setCol df1 "value" fv)

/-- format_archived_dataframe from utils.py. -/
def format_archived_dataframe (df : DataFrame) (p : String) :
    Except PdError DataFrame :=
  if p ∈ ARCHIVED_PARAMETER_GROUP1 then
    match dfGet df "Datum" with
    | .error e => .error e
    | .ok datum =>
      match dfGet df "Tid (UTC)" with
      | .error e => .error e
      | .ok tid =>
        match traverseInts toDatetimeCell datum, traverseInts toTimedeltaCell tid with
        | some ds, some ts =>
          let df1 := setCol df "date"
            (List.zipWith (fun a b => Cell.instant (a + b)) ds ts)
          match ilocCols df1 [-1, 2, 3] with
          | .error e => .error e
          | .ok df2 =>
            match renameCols df2 ["date", p, "quality"] with
            | .error e => .error e
            | .ok df3 => astypeFloat df3 p
        | _, _ => .error .parseError
  else if p ∈ ARCHIVED_PARAMETER_GROUP2 then
    match dfGet df "Representativt dygn" with
    | .error e => .error e
    | .ok rep =>
      match traverseInts toDatetimeCell rep with
      | none => .error .parseError
      | some ds =>
        let df1 := setCol df "date" (ds.map Cell.instant)
        match ilocCols df1 [-1, 3, 4] with
        | .error e => .error e
        | .ok df2 =>
          match renameCols df2 ["date", p, "quality"] with
          | .error e => .error e
          | .ok df3 => astypeFloat df3 p
  else .error (.notImplemented p)

/-- A row of a normalized table as the stitcher sees it: a date (UTC
instant, compared as an integer) plus the remaining cells of the row. -/
structure SRow where
  date : Int
  rest : List Cell
deriving DecidableEq

/-- pandas Series.max() over the date column: none on an empty table
models the NaN that pandas returns there (comparisons against NaN are
false). -/
def maxDate : List SRow → Option Int
  | [] => none
  | r :: rs =>
    match maxDate rs with
    | none => some r.date
    | some m => some (max r.date m)

/-- combine_archived_and_latest_months from utils.py.  Note that the
maximum is taken over the UNfiltered archive, exactly as in the source
(corrected_df.date.max()); append then reset_index is list concatenation. -/
def combine_archived_and_latest_months
    (corrected latest : List SRow) (combine_since : Int) : List SRow :=
  corrected.filter (fun r => decide (combine_since ≤ r.date)) ++
    latest.filter (fun r =>
      match maxDate corrected with
      | some v => decide (v < r.date)
      | none => false)

/-- Modelled from the spec (section 4.6 ArchiveLatestStitcher), for
comparison with the source: filter the archive to dates at least
combine_since, filter latest to dates strictly above the FILTERED
archive's maximum (all of latest when the filtered archive is empty),
and concatenate. -/
def stitch_spec (corrected latest : List SRow) (combine_since : Int) :
    List SRow :=
  corrected.filter (fun r => decide (combine_since ≤ r.date)) ++
    latest.filter (fun r =>
      match maxDate (corrected.filter (fun r2 => decide (combine_since ≤ r2.date))) with
      | some v => decide (v < r.date)
      | none => true)

/-- A row of a date-indexed single-parameter table as the multi-parameter
joiner sees it: the date index label plus the carried (value, quality, ...)
cells. -/
abbrev JRow := Int × List Cell

/-- One step of pd.concat([df, other[[value, quality]]], join=inner,
axis=1): keep the accumulator rows whose date label also occurs in the
other table, appending that table's cells; rows with no match drop out. -/
def concat_inner (df other : List JRow) : List JRow :=
  df.filterMap (fun r =>
    (other.find? (fun o => decide (o.1 = r.1))).map
      (fun o => (r.1, r.2 ++ o.2)))

/-- get_latest_months_multiple_params from client.py, abstracted over the
already-fetched single-parameter tables (one per requested parameter, in
request order).  An empty parameter list leaves df unbound in the source
(UnboundLocalError), modelled as none. -/
def get_latest_months_multiple_params
    (tables : List (List JRow)) : Option (List JRow) :=
  match tables with
  | [] => none
  | t :: ts => some (ts.foldl concat_inner t)

/-- A Python scalar of type Union str / float / int, the domain of
try_parse_float. -/
inductive PyScalar where
  | num (q : ℚ)
  | str (s : String)
deriving DecidableEq

/-- Python float(x) on a Union str / float / int argument: always
succeeds on numbers, parses strings. -/
def pyParse : PyScalar → Option ℚ
  | .num q => some q
  | .str s => pyFloat s

/-- try_parse_float from utils.py: return float(x), and on ValueError
return x unchanged. -/
def try_parse_float : PyScalar → PyScalar
  | .num q => .num q
  | .str s =>
    match pyFloat s with
    | some q => .num q
    | none => .str s

/-- One entry of a station's value list in the latest-hour JSON payload. -/
structure ObsValue where
  date : Int
  value : PyScalar
deriving DecidableEq

/-- One station record of the latest-hour JSON payload: its key and its
possibly-null value list. -/
structure StationData where
  key : String
  value : Option (List ObsValue)
deriving DecidableEq

/-- One output record of get_latest_observations. -/
structure LatestObs where
  parameter_id : Int
  timestamp : Int
  value : PyScalar
  station : String
deriving DecidableEq

/-- The value-collection loop of get_latest_observations in client.py,
abstracted over the already-fetched station records: skip stations whose
value list is null, and append one record per value, coercing the value
leniently with try_parse_float. -/
def get_latest_observations
    (parameter_id : Int) (stationRecords : List StationData) :
    List LatestObs :=
  stationRecords.foldl
    (fun vals x =>
      match x.value with
      | none => vals
      | some vl =>
        vals ++ vl.map (fun v =>
          ⟨parameter_id, v.date, try_parse_float v.value, x.key⟩))
    []

/-- A station record as get_closest_station sees it: an id and optional
coordinates (dict.get returns None when a key is missing). -/
structure Station where
  id : Nat
  latitude : Option ℚ
  longitude : Option ℚ
deriving DecidableEq

/-- Both coordinates present. -/
def hasCoords (st : Station) : Bool :=
  st.latitude.isSome && st.longitude.isSome

/-- Distance from the query point to a station with coordinates. -/
def distTo (dist : ℚ → ℚ → ℚ → ℚ → ℚ) (lat lon : ℚ) (st : Station) : ℚ :=
  match st.latitude, st.longitude with
  | some la, some lo => dist lat lon la lo
  | _, _ => 0

/-- The scan loop of get_closest_station in client.py: carry the best
station so far and its distance, skip stations missing a coordinate,
update on strict improvement. -/
def closestLoop (dist : ℚ → ℚ → ℚ → ℚ → ℚ) (lat lon : ℚ) :
    List Station → Option Station → ℚ → Option Station
  | [], best, _ => best
  | st :: rest, best, bd =>
    match st.latitude, st.longitude with
    | some la, some lo =>
      let d := dist lat lon la lo
      if d < bd then closestLoop dist lat lon rest (some st) d
      else closestLoop dist lat lon rest best bd
    | _, _ => closestLoop dist lat lon rest best bd

/-- get_closest_station from client.py, abstracted over the fetched
station list and the numeric distance function; the initial best distance
is the 1e10 sentinel of the source. -/
def get_closest_station (dist : ℚ → ℚ → ℚ → ℚ → ℚ) (lat lon : ℚ)
    (stations : List Station) : Option Station :=
  closestLoop dist lat lon stations none 10000000000

/-- First station in the list that strictly beats the bound and is at
least as close as every later valid station (ties broken by position);
used to characterize the scan loop. -/
def firstMin (dist : ℚ → ℚ → ℚ → ℚ → ℚ) (lat lon : ℚ) :
    List Station → ℚ → Option Station
  | [], _ => none
  | st :: rest, bd =>
    match st.latitude, st.longitude with
    | some la, some lo =>
      if dist lat lon la lo < bd then
        match firstMin dist lat lon rest (dist lat lon la lo) with
        | some s => some s
        | none => some st
      else firstMin dist lat lon rest bd
    | _, _ => firstMin dist lat lon rest bd

/-- CONST_EARTH_DIAMETER from utils.py, in km. -/
noncomputable def CONST_EARTH_DIAMETER : ℝ := 12742

/-- The haversine intermediate a computed by distance in utils.py, with
the degree-to-radian factor p = pi / 180 written inline. -/
noncomputable def haversineA (lat1 lon1 lat2 lon2 : ℝ) : ℝ :=
  0.5 - Real.cos ((lat2 - lat1) * (Real.pi / 180)) / 2 +
    Real.cos (lat1 * (Real.pi / 180)) * Real.cos (lat2 * (Real.pi / 180)) *
      (1 - Real.cos ((lon2 - lon1) * (Real.pi / 180))) / 2

/-- distance from utils.py: haversine distance in km over the reals. -/
noncomputable def distance (lat1 lon1 lat2 lon2 : ℝ) : ℝ :=
  CONST_EARTH_DIAMETER * Real.arcsin (Real.sqrt (haversineA lat1 lon1 lat2 lon2))

/-- Witness data: first single-parameter table, timestamps 1 and 2. -/
def w3a : List JRow := [(1, []), (2, [])]

/-- Witness data: second single-parameter table, timestamps 2 and 3. -/
def w3b : List JRow := [(2, []), (3, [])]

/-- Witness data: a concrete numeric distance function (squared Euclidean
distance on the coordinate plane). -/
def toyDist : ℚ → ℚ → ℚ → ℚ → ℚ :=
  fun a b c d => (a - c) * (a - c) + (b - d) * (b - d)

/-- Witness data: the spec's example station list. -/
def toyStations : List Station :=
  [⟨1, some 59, some 18⟩, ⟨2, some 60, some 18⟩]

/-! ### Lemmas about maxDate -/

theorem maxDate_eq_none_iff {l : List SRow} : maxDate l = none ↔ l = [] := by
  cases l with
  | nil => simp [maxDate]
  | cons r rs =>
    constructor
    · intro h
      cases h2 : maxDate rs <;> simp [maxDate, h2] at h
    · intro h
      cases h

theorem maxDate_isSome {l : List SRow} (h : l ≠ []) : ∃ m, maxDate l = some m := by
  cases hm : maxDate l with
  | none => exact absurd (maxDate_eq_none_iff.mp hm) h
  | some m => exact ⟨m, rfl⟩

theorem le_maxDate {l : List SRow} {r : SRow} {m : Int}
    (hr : r ∈ l) (hm : maxDate l = some m) : r.date ≤ m := by
  induction l generalizing m with
  | nil => cases hr
  | cons a l ih =>
    rcases List.mem_cons.mp hr with h | h
    · subst h
      cases h2 : maxDate l with
      | none =>
        simp [maxDate, h2] at hm
        omega
      | some m2 =>
        simp [maxDate, h2] at hm
        omega
    · cases h2 : maxDate l with
      | none =>
        rcases maxDate_eq_none_iff.mp h2 with rfl
        cases h
      | some m2 =>
        have := ih h h2
        simp [maxDate, h2] at hm
        omega

theorem maxDate_mem {l : List SRow} {m : Int}
    (hm : maxDate l = some m) : ∃ r ∈ l, r.date = m := by
  induction l generalizing m with
  | nil => simp [maxDate] at hm
  | cons a l ih =>
    cases h2 : maxDate l with
    | none =>
      simp [maxDate, h2] at hm
      exact ⟨a, List.mem_cons_self a l, hm⟩
    | some m2 =>
      simp [maxDate, h2] at hm
      rcases max_choice a.date m2 with h | h
      · exact ⟨a, List.mem_cons_self a l, by omega⟩
      · obtain ⟨r, hr, hrd⟩ := ih h2
        exact ⟨r, List.mem_cons_of_mem a hr, by omega⟩

theorem maxDate_filter_of_overlap {corrected : List SRow} {cs : Int}
    (hex : ∃ r ∈ corrected, cs ≤ r.date) :
    maxDate (corrected.filter (fun r => decide (cs ≤ r.date))) =
      maxDate corrected := by
  obtain ⟨r0, hr0, hcs⟩ := hex
  have hne : corrected ≠ [] := by
    intro h
    subst h
    cases hr0
  obtain ⟨M, hM⟩ := maxDate_isSome hne
  have hr0M : r0.date ≤ M := le_maxDate hr0 hM
  obtain ⟨rM, hrM, hrMd⟩ := maxDate_mem hM
  have hrMfa : rM ∈ corrected.filter (fun r => decide (cs ≤ r.date)) := by
    refine List.mem_filter.mpr ⟨hrM, ?_⟩
    simp only [decide_eq_true_eq]
    omega
  have hfne : corrected.filter (fun r => decide (cs ≤ r.date)) ≠ [] :=
    List.ne_nil_of_mem hrMfa
  obtain ⟨Mf, hMf⟩ := maxDate_isSome hfne
  have h1 : M ≤ Mf := hrMd ▸ le_maxDate hrMfa hMf
  have h2 : Mf ≤ M := by
    obtain ⟨rf, hrf, hrfd⟩ := maxDate_mem hMf
    have hrfc : rf ∈ corrected := (List.mem_filter.mp hrf).1
    exact hrfd ▸ le_maxDate hrfc hM
  rw [hM, hMf]
  congr 1
  omega

/-- Claim C1: for archive and latest tables each sorted ascending by date,
and a combine_since date with at least one archive row at or after it,
combine_archived_and_latest_months returns exactly the archive rows with
date at least combine_since followed by the latest rows dated strictly
after the filtered archive's maximum date, re-indexed from zero (list
concatenation); this is stitch_spec, the spec's description of stitch. -/
theorem combine_matches_spec_of_overlap
    (corrected latest : List SRow) (cs : Int)
    (_hsc : List.Sorted (fun a b : SRow => a.date ≤ b.date) corrected)
    (_hsl : List.Sorted (fun a b : SRow => a.date ≤ b.date) latest)
    (hex : ∃ r ∈ corrected, cs ≤ r.date) :
    combine_archived_and_latest_months corrected latest cs =
      stitch_spec corrected latest cs := by
  have hne : corrected ≠ [] := by
    obtain ⟨r0, hr0, _⟩ := hex
    intro h
    subst h
    cases hr0
  obtain ⟨M, hM⟩ := maxDate_isSome hne
  have hmd := maxDate_filter_of_overlap hex
  unfold combine_archived_and_latest_months stitch_spec
  rw [hmd, hM]

/-- Claim C1 witness: the spec's concrete example, archive dates 1, 2, 5,
latest dates 3, 6, combine_since 2, yields dates 2, 5, 6. -/
theorem combine_overlap_witness :
    List.Sorted (fun a b : SRow => a.date ≤ b.date)
      [⟨1, []⟩, ⟨2, []⟩, ⟨5, []⟩] ∧
    List.Sorted (fun a b : SRow => a.date ≤ b.date) [⟨3, []⟩, ⟨6, []⟩] ∧
    (∃ r ∈ [(⟨1, []⟩ : SRow), ⟨2, []⟩, ⟨5, []⟩], (2 : Int) ≤ r.date) ∧
    combine_archived_and_latest_months
        [⟨1, []⟩, ⟨2, []⟩, ⟨5, []⟩] [⟨3, []⟩, ⟨6, []⟩] 2 =
      stitch_spec [⟨1, []⟩, ⟨2, []⟩, ⟨5, []⟩] [⟨3, []⟩, ⟨6, []⟩] 2 ∧
    (combine_archived_and_latest_months
        [⟨1, []⟩, ⟨2, []⟩, ⟨5, []⟩] [⟨3, []⟩, ⟨6, []⟩] 2).map SRow.date =
      [2, 5, 6] :=
  ⟨by decide, by decide, by decide,
    combine_matches_spec_of_overlap _ _ _ (by decide) (by decide) (by decide),
    by decide⟩

/-- Claim C2 counterexample: with archive dates 1, 2, 5, latest dates
3, 6 and combine_since 10 the filtered archive is empty, yet the source
still compares latest against the unfiltered archive's maximum 5 and
returns only the row dated 6, not all latest rows. -/
theorem combine_empty_filter_counterexample :
    combine_archived_and_latest_months
        [⟨1, []⟩, ⟨2, []⟩, ⟨5, []⟩] [⟨3, []⟩, ⟨6, []⟩] 10 =
      [⟨6, []⟩] ∧
    combine_archived_and_latest_months
        [⟨1, []⟩, ⟨2, []⟩, ⟨5, []⟩] [⟨3, []⟩, ⟨6, []⟩] 10 ≠
      [⟨3, []⟩, ⟨6, []⟩] := by
  constructor
  · decide
  · decide

/-- Claim C2 amended: when no archive row has date at least combine_since,
the latest rows are still compared against the UNfiltered archive's
maximum date: for a non-empty archive the result is the latest rows dated
strictly after that maximum, and for an empty archive the maximum is NaN,
every comparison is false, and the result is empty. -/
theorem combine_empty_filter_behavior
    (corrected latest : List SRow) (cs : Int)
    (h : ∀ r ∈ corrected, r.date < cs) :
    combine_archived_and_latest_months corrected latest cs =
      match maxDate corrected with
      | some m => latest.filter (fun r => decide (m < r.date))
      | none => [] := by
  unfold combine_archived_and_latest_months
  have hfa : corrected.filter (fun r => decide (cs ≤ r.date)) = [] := by
    rw [List.filter_eq_nil_iff]
    intro r hr
    simp only [decide_eq_true_eq]
    exact not_le.mpr (h r hr)
  rw [hfa]
  cases hm : maxDate corrected with
  | none => simp
  | some m => simp

/-- Claim C2 amended witness: archive date 1, latest dates 0 and 2,
combine_since 10: the filtered archive is empty and the result is the
latest rows dated after 1, namely the single row dated 2. -/
theorem combine_empty_filter_witness :
    (∀ r ∈ [(⟨1, []⟩ : SRow)], r.date < 10) ∧
    combine_archived_and_latest_months [⟨1, []⟩] [⟨0, []⟩, ⟨2, []⟩] 10 =
      match maxDate [(⟨1, []⟩ : SRow)] with
      | some m => List.filter (fun r => decide (m < r.date)) [⟨0, []⟩, ⟨2, []⟩]
      | none => [] :=
  ⟨by decide, combine_empty_filter_behavior _ _ _ (by decide)⟩

/-- Claim C6: a parameter belonging to neither archive format group makes
format_archived_dataframe fail with the explicit not-implemented error for
that parameter, never a silent default layout. -/
theorem format_archived_unsupported_spec
    (df : DataFrame) (p : String)
    (h1 : p ∉ ARCHIVED_PARAMETER_GROUP1)
    (h2 : p ∉ ARCHIVED_PARAMETER_GROUP2) :
    format_archived_dataframe df p = .error (.notImplemented p) := by
  simp [format_archived_dataframe, h1, h2]

/-- Claim C6 witness: the parameter Wind is in neither group and archive
normalization of any table fails with the not-implemented error. -/
theorem format_archived_unsupported_witness :
    "Wind" ∉ ARCHIVED_PARAMETER_GROUP1 ∧
    "Wind" ∉ ARCHIVED_PARAMETER_GROUP2 ∧
    format_archived_dataframe [] "Wind" =
      .error (.notImplemented "Wind") :=
  ⟨by decide, by decide,
    format_archived_unsupported_spec [] "Wind" (by decide) (by decide)⟩

/-- Claim C8: try_parse_float either returns the strictly parsed number
(when Python float(x) succeeds, pyParse) or returns its argument
unchanged; it is a total function into the same scalar type, so it never
raises and never returns null.  In particular it parses the string 3.14
to 157/50 and returns the string N/A unchanged. -/
theorem try_parse_float_spec :
    ∀ x : PyScalar,
      ((∃ q, pyParse x = some q ∧ try_parse_float x = .num q) ∨
        (pyParse x = none ∧ try_parse_float x = x)) ∧
      try_parse_float (.str "3.14") = .num (157 / 50) ∧
      try_parse_float (.str "N/A") = .str "N/A" := by
  intro x
  have h314 : pyFloat "3.14" = some (157 / 50) := by
    have h : pyParts (trimWs "3.14".toList) = some (1, 3, 14, 2, 0) := by decide
    rw [pyFloat, h]
    show some (ratOfParts (1, 3, 14, 2, 0)) = some (157 / 50)
    norm_num [ratOfParts]
  have hNA : pyFloat "N/A" = none := by decide
  refine ⟨?_, by simp [try_parse_float, h314], by simp [try_parse_float, hNA]⟩
  cases x with
  | num q => exact Or.inl ⟨q, rfl, rfl⟩
  | str s =>
    cases h : pyFloat s with
    | none =>
      refine Or.inr ⟨h, ?_⟩
      simp [try_parse_float, h]
    | some q =>
      refine Or.inl ⟨q, h, ?_⟩
      simp [try_parse_float, h]

/-- Claim C10: for all real latitude and longitude inputs the haversine
intermediate a computed by distance lies in the closed interval from 0
to 1, so sqrt and arcsin are applied within their domains, and distance
is a defined nonnegative value bounded by 12742 times a quarter turn,
in particular strictly below the 1e10 sentinel of the closest-station
search. -/
theorem distance_domain_safe (lat1 lon1 lat2 lon2 : ℝ) :
    0 ≤ haversineA lat1 lon1 lat2 lon2 ∧
    haversineA lat1 lon1 lat2 lon2 ≤ 1 ∧
    0 ≤ distance lat1 lon1 lat2 lon2 ∧
    distance lat1 lon1 lat2 lon2 ≤ 12742 * (Real.pi / 2) ∧
    distance lat1 lon1 lat2 lon2 < 1e10 := by
  have key : haversineA lat1 lon1 lat2 lon2 =
      (1 - (Real.sin (lat1 * (Real.pi / 180)) * Real.sin (lat2 * (Real.pi / 180)) +
        Real.cos (lat1 * (Real.pi / 180)) * Real.cos (lat2 * (Real.pi / 180)) *
          Real.cos ((lon2 - lon1) * (Real.pi / 180)))) / 2 := by
    unfold haversineA
    have h : (lat2 - lat1) * (Real.pi / 180) =
        lat2 * (Real.pi / 180) - lat1 * (Real.pi / 180) := by ring
    rw [h, Real.cos_sub]
    ring
  set s1 := Real.sin (lat1 * (Real.pi / 180)) with hs1def
  set s2 := Real.sin (lat2 * (Real.pi / 180)) with hs2def
  set c1 := Real.cos (lat1 * (Real.pi / 180)) with hc1def
  set c2 := Real.cos (lat2 * (Real.pi / 180)) with hc2def
  set t := Real.cos ((lon2 - lon1) * (Real.pi / 180)) with htdef
  have hp1 : s1 ^ 2 + c1 ^ 2 = 1 := Real.sin_sq_add_cos_sq _
  have hp2 : s2 ^ 2 + c2 ^ 2 = 1 := Real.sin_sq_add_cos_sq _
  have ht1 : t ≤ 1 := Real.cos_le_one _
  have ht2 : -1 ≤ t := Real.neg_one_le_cos _
  have ht3 : (0 : ℝ) ≤ 1 - t ^ 2 := by nlinarith
  have he1 : s1 * s2 + c1 * c2 * t ≤ 1 := by
    nlinarith [sq_nonneg (s1 - s2), sq_nonneg (c1 - c2 * t),
      mul_nonneg (sq_nonneg c2) ht3]
  have he2 : -1 ≤ s1 * s2 + c1 * c2 * t := by
    nlinarith [sq_nonneg (s1 + s2), sq_nonneg (c1 + c2 * t),
      mul_nonneg (sq_nonneg c2) ht3]
  have ha0 : 0 ≤ haversineA lat1 lon1 lat2 lon2 := by rw [key]; linarith
  have ha1 : haversineA lat1 lon1 lat2 lon2 ≤ 1 := by rw [key]; linarith
  have harc0 : 0 ≤ Real.arcsin (Real.sqrt (haversineA lat1 lon1 lat2 lon2)) :=
    Real.arcsin_nonneg.mpr (Real.sqrt_nonneg _)
  have harc1 : Real.arcsin (Real.sqrt (haversineA lat1 lon1 lat2 lon2)) ≤
      Real.pi / 2 := Real.arcsin_le_pi_div_two _
  have hd0 : 0 ≤ distance lat1 lon1 lat2 lon2 := by
    unfold distance CONST_EARTH_DIAMETER
    exact mul_nonneg (by norm_num) harc0
  have hd1 : distance lat1 lon1 lat2 lon2 ≤ 12742 * (Real.pi / 2) := by
    unfold distance CONST_EARTH_DIAMETER
    nlinarith
  have hd2 : distance lat1 lon1 lat2 lon2 < 1e10 := by
    have hpi : Real.pi ≤ 4 := Real.pi_le_four
    have : (12742 : ℝ) * (Real.pi / 2) ≤ 12742 * 2 := by nlinarith
    calc distance lat1 lon1 lat2 lon2 ≤ 12742 * (Real.pi / 2) := hd1
      _ ≤ 12742 * 2 := this
      _ < 1e10 := by norm_num
  exact ⟨ha0, ha1, hd0, hd1, hd2⟩

/-! ### Lemmas about the inner-join fold -/

theorem concat_inner_fst_sublist (a b : List JRow) :
    ((concat_inner a b).map Prod.fst).Sublist (a.map Prod.fst) := by
  induction a with
  | nil => simp [concat_inner]
  | cons r a ih =>
    unfold concat_inner at ih ⊢
    cases h : b.find? (fun o => decide (o.1 = r.1)) with
    | none =>
      simp only [List.filterMap_cons, h, Option.map_none', List.map_cons]
      exact ih.cons r.1
    | some o =>
      simp only [List.filterMap_cons, h, Option.map_some', List.map_cons]
      exact ih.cons₂ r.1

theorem concat_inner_length_le (a b : List JRow) :
    (concat_inner a b).length ≤ a.length := by
  have h := (concat_inner_fst_sublist a b).length_le
  simpa using h

theorem concat_inner_fst_mem {a b : List JRow} {x : Int}
    (h : x ∈ (concat_inner a b).map Prod.fst) : x ∈ b.map Prod.fst := by
  rcases List.mem_map.mp h with ⟨rr, hrr, rfl⟩
  unfold concat_inner at hrr
  rcases List.mem_filterMap.mp hrr with ⟨r, _hr, hf⟩
  cases hfind : b.find? (fun o => decide (o.1 = r.1)) with
  | none =>
    rw [hfind] at hf
    cases hf
  | some o =>
    rw [hfind] at hf
    have ho : o ∈ b := List.mem_of_find?_eq_some hfind
    have hoo : o.1 = r.1 := by simpa using List.find?_some hfind
    cases hf
    exact hoo ▸ List.mem_map_of_mem Prod.fst ho

theorem foldl_concat_nodup_len (ts : List (List JRow)) :
    ∀ a : List JRow, (a.map Prod.fst).Nodup →
      ((ts.foldl concat_inner a).map Prod.fst).Nodup ∧
      (ts.foldl concat_inner a).length ≤ a.length := by
  induction ts with
  | nil => exact fun a h => ⟨h, le_refl _⟩
  | cons b ts ih =>
    intro a h
    have hnd : ((concat_inner a b).map Prod.fst).Nodup :=
      h.sublist (concat_inner_fst_sublist a b)
    have h2 := ih (concat_inner a b) hnd
    exact ⟨h2.1, h2.2.trans (concat_inner_length_le a b)⟩

theorem foldl_concat_fst_subset (ts : List (List JRow)) :
    ∀ (a : List JRow) (x : Int), x ∈ (ts.foldl concat_inner a).map Prod.fst →
      x ∈ a.map Prod.fst ∧ ∀ tab ∈ ts, x ∈ tab.map Prod.fst := by
  induction ts with
  | nil =>
    intro a x hx
    exact ⟨hx, by simp⟩
  | cons b ts ih =>
    intro a x hx
    have h2 := ih (concat_inner a b) x hx
    have hxa : x ∈ a.map Prod.fst :=
      (concat_inner_fst_sublist a b).subset h2.1
    have hxb : x ∈ b.map Prod.fst := concat_inner_fst_mem h2.1
    refine ⟨hxa, ?_⟩
    intro tab htab
    rcases List.mem_cons.mp htab with h | h
    · exact h ▸ hxb
    · exact h2.2 tab h

theorem foldl_concat_len_tab (ts : List (List JRow)) :
    ∀ a : List JRow, (a.map Prod.fst).Nodup →
      ∀ tab ∈ ts, (ts.foldl concat_inner a).length ≤ tab.length := by
  induction ts with
  | nil =>
    intro a _ tab htab
    cases htab
  | cons b ts ih =>
    intro a h tab htab
    have hnd : ((concat_inner a b).map Prod.fst).Nodup :=
      h.sublist (concat_inner_fst_sublist a b)
    rcases List.mem_cons.mp htab with heq | ht
    · have hres := foldl_concat_nodup_len ts (concat_inner a b) hnd
      have hsub : ((ts.foldl concat_inner (concat_inner a b)).map Prod.fst) ⊆
          b.map Prod.fst := by
        intro x hx
        exact concat_inner_fst_mem (foldl_concat_fst_subset ts _ x hx).1
      have hsp := (List.subperm_of_subset hres.1 hsub).length_le
      rw [heq]
      simpa using hsp
    · exact ih (concat_inner a b) hnd tab ht

/-- Claim C3: for a non-empty list of single-parameter tables (first table
with distinct timestamps, as normalized tables have), the multi-parameter
join keeps only timestamps present in every input table, its row count is
at most every input's row count, and two tables with disjoint timestamps
join to an empty result. -/
theorem multi_params_inner_join_spec
    (t : List JRow) (ts : List (List JRow))
    (hnd : (t.map Prod.fst).Nodup) :
    get_latest_months_multiple_params (t :: ts) =
      some (ts.foldl concat_inner t) ∧
    (∀ d ∈ (ts.foldl concat_inner t).map Prod.fst,
      ∀ tab ∈ t :: ts, d ∈ tab.map Prod.fst) ∧
    (∀ tab ∈ t :: ts, (ts.foldl concat_inner t).length ≤ tab.length) ∧
    (∀ t2 : List JRow,
      (∀ d ∈ t.map Prod.fst, d ∉ t2.map Prod.fst) →
        get_latest_months_multiple_params [t, t2] = some []) := by
  refine ⟨rfl, ?_, ?_, ?_⟩
  · intro d hd tab htab
    rcases List.mem_cons.mp htab with heq | ht
    · exact heq ▸ (foldl_concat_fst_subset ts t d hd).1
    · exact (foldl_concat_fst_subset ts t d hd).2 tab ht
  · intro tab htab
    rcases List.mem_cons.mp htab with heq | ht
    · exact heq ▸ (foldl_concat_nodup_len ts t hnd).2
    · exact foldl_concat_len_tab ts t hnd tab ht
  · intro t2 hdisj
    show some ([t2].foldl concat_inner t) = some []
    congr 1
    show concat_inner t t2 = []
    unfold concat_inner
    rw [List.filterMap_eq_nil_iff]
    intro r hr
    cases hfind : t2.find? (fun o => decide (o.1 = r.1)) with
    | none => simp
    | some o =>
      have ho : o ∈ t2 := List.mem_of_find?_eq_some hfind
      have hoo : o.1 = r.1 := by simpa using List.find?_some hfind
      exact absurd (hoo ▸ List.mem_map_of_mem Prod.fst ho)
        (hdisj r.1 (List.mem_map_of_mem Prod.fst hr))

/-- Claim C3 witness: tables with timestamps 1,2 and 2,3 joined; the
intersection semantics, the row-count bound and the disjoint case hold at
this concrete input. -/
theorem multi_params_inner_join_witness :
    (w3a.map Prod.fst).Nodup ∧
    (get_latest_months_multiple_params [w3a, w3b] =
        some ([w3b].foldl concat_inner w3a) ∧
      (∀ d ∈ ([w3b].foldl concat_inner w3a).map Prod.fst,
        ∀ tab ∈ [w3a, w3b], d ∈ tab.map Prod.fst) ∧
      (∀ tab ∈ [w3a, w3b], ([w3b].foldl concat_inner w3a).length ≤ tab.length) ∧
      (∀ t2 : List JRow,
        (∀ d ∈ w3a.map Prod.fst, d ∉ t2.map Prod.fst) →
          get_latest_months_multiple_params [w3a, t2] = some [])) :=
  ⟨by decide, multi_params_inner_join_spec w3a [w3b] (by decide)⟩

/-! ### Lemmas about the closest-station scan -/

theorem closestLoop_eq_firstMin (dist : ℚ → ℚ → ℚ → ℚ → ℚ) (lat lon : ℚ) :
    ∀ (l : List Station) (best : Option Station) (bd : ℚ),
      closestLoop dist lat lon l best bd =
        match firstMin dist lat lon l bd with
        | some s => some s
        | none => best := by
  intro l
  induction l with
  | nil => intro best bd; rfl
  | cons st rest ih =>
    intro best bd
    cases hla : st.latitude with
    | none =>
      simp only [closestLoop, firstMin, hla]
      exact ih best bd
    | some la =>
      cases hlo : st.longitude with
      | none =>
        simp only [closestLoop, firstMin, hla, hlo]
        exact ih best bd
      | some lo =>
        simp only [closestLoop, firstMin, hla, hlo]
        by_cases hd : dist lat lon la lo < bd
        · simp only [hd, if_true]
          rw [ih (some st) (dist lat lon la lo)]
          cases firstMin dist lat lon rest (dist lat lon la lo) <;> rfl
        · simp only [hd, if_false]
          exact ih best bd

theorem firstMin_none_iff (dist : ℚ → ℚ → ℚ → ℚ → ℚ) (lat lon : ℚ) :
    ∀ (l : List Station) (bd : ℚ),
      firstMin dist lat lon l bd = none ↔
        ∀ st ∈ l, hasCoords st = true → ¬(distTo dist lat lon st < bd) := by
  intro l
  induction l with
  | nil => intro bd; simp [firstMin]
  | cons st rest ih =>
    intro bd
    cases hla : st.latitude with
    | none =>
      have hcc : hasCoords st = false := by simp [hasCoords, hla]
      simp only [firstMin, hla]
      rw [ih bd]
      constructor
      · intro h st2 hst2 hc2
        rcases List.mem_cons.mp hst2 with heq | hmem
        · rw [heq, hcc] at hc2; cases hc2
        · exact h st2 hmem hc2
      · intro h st2 hst2 hc2
        exact h st2 (List.mem_cons_of_mem st hst2) hc2
    | some la =>
      cases hlo : st.longitude with
      | none =>
        have hcc : hasCoords st = false := by simp [hasCoords, hlo]
        simp only [firstMin, hla, hlo]
        rw [ih bd]
        constructor
        · intro h st2 hst2 hc2
          rcases List.mem_cons.mp hst2 with heq | hmem
          · rw [heq, hcc] at hc2; cases hc2
          · exact h st2 hmem hc2
        · intro h st2 hst2 hc2
          exact h st2 (List.mem_cons_of_mem st hst2) hc2
      | some lo =>
        have hcc : hasCoords st = true := by simp [hasCoords, hla, hlo]
        have hdt : distTo dist lat lon st = dist lat lon la lo := by
          simp [distTo, hla, hlo]
        simp only [firstMin, hla, hlo]
        by_cases hd : dist lat lon la lo < bd
        · simp only [hd, if_true]
          constructor
          · intro h
            cases hfm : firstMin dist lat lon rest (dist lat lon la lo) <;>
              rw [hfm] at h <;> cases h
          · intro h
            exact absurd (hdt ▸ hd) (h st (List.mem_cons_self st rest) hcc)
        · simp only [hd, if_false]
          rw [ih bd]
          constructor
          · intro h st2 hst2 hc2
            rcases List.mem_cons.mp hst2 with heq | hmem
            · rw [heq, hdt]; exact hd
            · exact h st2 hmem hc2
          · intro h st2 hst2 hc2
            exact h st2 (List.mem_cons_of_mem st hst2) hc2

theorem firstMin_some (dist : ℚ → ℚ → ℚ → ℚ → ℚ) (lat lon : ℚ) :
    ∀ (l : List Station) (bd : ℚ) (s : Station),
      firstMin dist lat lon l bd = some s →
        s ∈ l ∧ hasCoords s = true ∧ distTo dist lat lon s < bd ∧
        (∀ st ∈ l, hasCoords st = true →
          distTo dist lat lon s ≤ distTo dist lat lon st) ∧
        ∃ pre post, l = pre ++ s :: post ∧
          ∀ st ∈ pre, hasCoords st = true →
            distTo dist lat lon s < distTo dist lat lon st := by
  intro l
  induction l with
  | nil => intro bd s h; cases h
  | cons st rest ih =>
    intro bd s h
    cases hla : st.latitude with
    | none =>
      have hcc : hasCoords st = false := by simp [hasCoords, hla]
      rw [firstMin, hla] at h
      obtain ⟨hmem, hc, hlt, hmin, pre, post, hsplit, hpre⟩ := ih bd s h
      refine ⟨List.mem_cons_of_mem st hmem, hc, hlt, ?_, st :: pre, post, by rw [hsplit, List.cons_append], ?_⟩
      · intro st2 hst2 hc2
        rcases List.mem_cons.mp hst2 with heq | hmem2
        · rw [heq, hcc] at hc2; cases hc2
        · exact hmin st2 hmem2 hc2
      · intro st2 hst2 hc2
        rcases List.mem_cons.mp hst2 with heq | hmem2
        · rw [heq, hcc] at hc2; cases hc2
        · exact hpre st2 hmem2 hc2
    | some la =>
      cases hlo : st.longitude with
      | none =>
        have hcc : hasCoords st = false := by simp [hasCoords, hlo]
        rw [firstMin, hla, hlo] at h
        obtain ⟨hmem, hc, hlt, hmin, pre, post, hsplit, hpre⟩ := ih bd s h
        refine ⟨List.mem_cons_of_mem st hmem, hc, hlt, ?_, st :: pre, post, by rw [hsplit, List.cons_append], ?_⟩
        · intro st2 hst2 hc2
          rcases List.mem_cons.mp hst2 with heq | hmem2
          · rw [heq, hcc] at hc2; cases hc2
          · exact hmin st2 hmem2 hc2
        · intro st2 hst2 hc2
          rcases List.mem_cons.mp hst2 with heq | hmem2
          · rw [heq, hcc] at hc2; cases hc2
          · exact hpre st2 hmem2 hc2
      | some lo =>
        have hcc : hasCoords st = true := by simp [hasCoords, hla, hlo]
        have hdt : distTo dist lat lon st = dist lat lon la lo := by
          simp [distTo, hla, hlo]
        rw [firstMin, hla, hlo] at h
        have h2 : (if dist lat lon la lo < bd then
            match firstMin dist lat lon rest (dist lat lon la lo) with
            | some s2 => some s2
            | none => some st
          else firstMin dist lat lon rest bd) = some s := h
        clear h
        by_cases hd : dist lat lon la lo < bd
        · rw [if_pos hd] at h2
          cases hfm : firstMin dist lat lon rest (dist lat lon la lo) with
          | some s2 =>
            rw [hfm] at h2
            cases h2
            obtain ⟨hmem, hc, hlt, hmin, pre, post, hsplit, hpre⟩ :=
              ih (dist lat lon la lo) s hfm
            refine ⟨List.mem_cons_of_mem st hmem, hc, hlt.trans hd, ?_,
              st :: pre, post, by rw [hsplit, List.cons_append], ?_⟩
            · intro st2 hst2 hc2
              rcases List.mem_cons.mp hst2 with heq | hmem2
              · rw [heq, hdt]; exact le_of_lt hlt
              · exact hmin st2 hmem2 hc2
            · intro st2 hst2 hc2
              rcases List.mem_cons.mp hst2 with heq | hmem2
              · rw [heq, hdt]; exact hlt
              · exact hpre st2 hmem2 hc2
          | none =>
            rw [hfm] at h2
            cases h2
            have hrest := (firstMin_none_iff dist lat lon rest
              (dist lat lon la lo)).mp hfm
            refine ⟨List.mem_cons_self st rest, hcc, hdt ▸ hd, ?_, [], rest,
              rfl, by intro st2 hst2 hc2; cases hst2⟩
            intro st2 hst2 hc2
            rcases List.mem_cons.mp hst2 with heq | hmem2
            · rw [heq]
            · rw [hdt]
              exact le_of_not_lt (hrest st2 hmem2 hc2)
        · rw [if_neg hd] at h2
          obtain ⟨hmem, hc, hlt, hmin, pre, post, hsplit, hpre⟩ := ih bd s h2
          have hsd : distTo dist lat lon s < dist lat lon la lo :=
            lt_of_lt_of_le hlt (le_of_not_lt hd)
          refine ⟨List.mem_cons_of_mem st hmem, hc, hlt, ?_,
            st :: pre, post, by rw [hsplit, List.cons_append], ?_⟩
          · intro st2 hst2 hc2
            rcases List.mem_cons.mp hst2 with heq | hmem2
            · rw [heq, hdt]; exact le_of_lt hsd
            · exact hmin st2 hmem2 hc2
          · intro st2 hst2 hc2
            rcases List.mem_cons.mp hst2 with heq | hmem2
            · rw [heq, hdt]; exact hsd
            · exact hpre st2 hmem2 hc2

/-- Claim C9: provided every valid station's distance is below the 1e10
sentinel (which claim C10 establishes for the haversine distance),
get_closest_station returns none exactly when no station has both
coordinates; otherwise it returns the first station in scan order
attaining the minimum distance (strict less-than update, so earlier
stations win ties), skipping stations that miss a coordinate. -/
theorem get_closest_station_spec (dist : ℚ → ℚ → ℚ → ℚ → ℚ) (lat lon : ℚ)
    (stations : List Station)
    (hb : ∀ st ∈ stations, hasCoords st = true →
      distTo dist lat lon st < 10000000000) :
    (get_closest_station dist lat lon stations = none ↔
      ∀ st ∈ stations, hasCoords st = false) ∧
    (∀ s, get_closest_station dist lat lon stations = some s →
      hasCoords s = true ∧ s ∈ stations ∧
      (∀ st ∈ stations, hasCoords st = true →
        distTo dist lat lon s ≤ distTo dist lat lon st) ∧
      ∃ pre post, stations = pre ++ s :: post ∧
        ∀ st ∈ pre, hasCoords st = true →
          distTo dist lat lon s < distTo dist lat lon st) := by
  unfold get_closest_station
  rw [closestLoop_eq_firstMin]
  constructor
  · cases hfm : firstMin dist lat lon stations 10000000000 with
    | none =>
      simp only []
      constructor
      · intro _ st hst
        cases hc : hasCoords st with
        | false => rfl
        | true =>
          exact absurd (hb st hst hc)
            ((firstMin_none_iff dist lat lon stations 10000000000).mp hfm st hst hc)
      · intro _; trivial
    | some s =>
      simp only []
      constructor
      · intro h; cases h
      · intro hall
        obtain ⟨hmem, hc, _, _, _⟩ := firstMin_some dist lat lon stations _ s hfm
        rw [hall s hmem] at hc
        cases hc
  · intro s hs
    cases hfm : firstMin dist lat lon stations 10000000000 with
    | none => rw [hfm] at hs; cases hs
    | some s2 =>
      rw [hfm] at hs
      cases hs
      obtain ⟨hmem, hc, _, hmin, pre, post, hsplit, hpre⟩ :=
        firstMin_some dist lat lon stations _ s hfm
      exact ⟨hc, hmem, hmin, pre, post, hsplit, hpre⟩

/-- Claim C9 witness: the spec's example, stations 1 at (59, 18) and 2 at
(60, 18) queried at (59, 18) with a concrete squared-Euclidean distance:
the theorem applies and in particular station 1 is returned. -/
theorem get_closest_station_witness :
    (∀ st ∈ toyStations, hasCoords st = true →
      distTo toyDist 59 18 st < 10000000000) ∧
    ((get_closest_station toyDist 59 18 toyStations = none ↔
        ∀ st ∈ toyStations, hasCoords st = false) ∧
      (∀ s, get_closest_station toyDist 59 18 toyStations = some s →
        hasCoords s = true ∧ s ∈ toyStations ∧
        (∀ st ∈ toyStations, hasCoords st = true →
          distTo toyDist 59 18 s ≤ distTo toyDist 59 18 st) ∧
        ∃ pre post, toyStations = pre ++ s :: post ∧
          ∀ st ∈ pre, hasCoords st = true →
            distTo toyDist 59 18 s < distTo toyDist 59 18 st)) := by
  have hb : ∀ st ∈ toyStations, hasCoords st = true →
      distTo toyDist 59 18 st < 10000000000 := by
    intro st hst _h
    simp only [toyStations, List.mem_cons, List.not_mem_nil, or_false] at hst
    rcases hst with rfl | rfl <;> norm_num [distTo, toyDist]
  exact ⟨hb, get_closest_station_spec toyDist 59 18 toyStations hb⟩

/-! ### Lemmas about the DataFrame operations -/

theorem dfGet_cons_eq (n : String) (v : List Cell) (cs : DataFrame) :
    dfGet ((n, v) :: cs) n = .ok v := by
  simp [dfGet]

theorem dfGet_cons_ne (c : Col) (cs : DataFrame) (n : String) (h : c.1 ≠ n) :
    dfGet (c :: cs) n = dfGet cs n := by
  simp [dfGet, h]

theorem setCol_cons_ne (c : Col) (cs : DataFrame) (n : String)
    (v : List Cell) (h : c.1 ≠ n) :
    setCol (c :: cs) n v = c :: setCol cs n v := by
  simp [setCol, h]

theorem setCol_cons_eq (n : String) (w : List Cell) (cs : DataFrame)
    (v : List Cell) :
    setCol ((n, w) :: cs) n v = (n, v) :: cs := by
  simp [setCol]

/-- Variant of dfGet_cons_ne with the head column given as a pair, so the
disequality is between plain strings. -/
theorem dfGet_cons_of_ne (m : String) (v : List Cell) (cs : DataFrame)
    (n : String) (h : m ≠ n) :
    dfGet ((m, v) :: cs) n = dfGet cs n := by
  simp [dfGet, h]

/-- Variant of setCol_cons_ne with the head column given as a pair. -/
theorem setCol_cons_of_ne (m : String) (w : List Cell) (cs : DataFrame)
    (n : String) (v : List Cell) (h : m ≠ n) :
    setCol ((m, w) :: cs) n v = (m, w) :: setCol cs n v := by
  simp [setCol, h]

theorem setCol_of_not_mem (df : DataFrame) (n : String) (v : List Cell)
    (h : n ∉ df.map Prod.fst) :
    setCol df n v = df ++ [(n, v)] := by
  induction df with
  | nil => rfl
  | cons c cs ih =>
    simp only [List.map_cons, List.mem_cons, not_or] at h
    rw [setCol_cons_ne c cs n v (fun he => h.1 he.symm), ih h.2,
      List.cons_append]

theorem get?_append_length {α : Type} (l : List α) (a : α) :
    (l ++ [a]).get? l.length = some a := by
  induction l with
  | nil => rfl
  | cons x l ih => simp [ih]

theorem pickOne_neg_one (l : List Col) (c : Col) :
    pickOne (l ++ [c]) (-1) = .ok c := by
  have h1 : resolveIdx (l ++ [c]).length (-1) = (l.length : Int) := by
    unfold resolveIdx
    rw [if_pos (by norm_num : (-1 : Int) < 0)]
    simp only [List.length_append, List.length_cons, List.length_nil]
    push_cast
    ring
  unfold pickOne
  rw [h1, if_pos (Int.natCast_nonneg _), Int.toNat_natCast,
    get?_append_length]

theorem pickOne_nonneg (df : DataFrame) (i : Int) (c : Col)
    (h0 : 0 ≤ i) (h : df.get? i.toNat = some c) :
    pickOne df i = .ok c := by
  have h1 : resolveIdx df.length i = i := by
    unfold resolveIdx
    rw [if_neg (not_lt.mpr h0)]
  unfold pickOne
  rw [h1, if_pos h0, h]

/-- Claim C4: for a table of the Group-1 archive shape (Datum and
Tid (UTC) columns first, then the value and quality columns, possibly
followed by further columns, and no column named date) and a Group-1
parameter, format_archived_dataframe yields exactly three columns named
date, the parameter name and quality, where the date column combines each
Datum date with its Tid (UTC) time of day into one UTC instant, and the
other two columns are the third and fourth original columns, with the
value column strictly coerced to float. -/
theorem format_archived_group1_spec
    (p : String) (hp : p ∈ ARCHIVED_PARAMETER_GROUP1)
    (dvals tvals vvals qvals : List Cell) (vn qn : String) (rest : DataFrame)
    (hdate : "date" ∉
      (("Datum", dvals) :: ("Tid (UTC)", tvals) :: (vn, vvals) ::
        (qn, qvals) :: rest).map Prod.fst)
    (ds ts : List Int)
    (hd : traverseInts toDatetimeCell dvals = some ds)
    (ht : traverseInts toTimedeltaCell tvals = some ts)
    (fv : List Cell)
    (hv : traverseCells strictFloatCell vvals = some fv) :
    format_archived_dataframe
        (("Datum", dvals) :: ("Tid (UTC)", tvals) :: (vn, vvals) ::
          (qn, qvals) :: rest) p =
      .ok [("date", List.zipWith (fun a b => Cell.instant (a + b)) ds ts),
        (p, fv), ("quality", qvals)] := by
  have hdp : "date" ≠ p := by
    simp only [ARCHIVED_PARAMETER_GROUP1, List.mem_cons,
      List.not_mem_nil, or_false] at hp
    rcases hp with rfl | rfl <;> decide
  set df : DataFrame := ("Datum", dvals) :: ("Tid (UTC)", tvals) ::
    (vn, vvals) :: (qn, qvals) :: rest with hdf
  set X : List Cell :=
    List.zipWith (fun a b => Cell.instant (a + b)) ds ts with hX
  have hgD : dfGet df "Datum" = .ok dvals := dfGet_cons_eq _ _ _
  have hgT : dfGet df "Tid (UTC)" = .ok tvals := by
    rw [hdf, dfGet_cons_of_ne _ _ _ _ (by decide : "Datum" ≠ "Tid (UTC)"),
      dfGet_cons_eq]
  have hset : setCol df "date" X = df ++ [("date", X)] :=
    setCol_of_not_mem df "date" X hdate
  have hp1 : pickOne (df ++ [("date", X)]) (-1) = .ok ("date", X) :=
    pickOne_neg_one df ("date", X)
  have hp2 : pickOne (df ++ [("date", X)]) 2 = .ok (vn, vvals) :=
    pickOne_nonneg _ 2 _ (by norm_num) rfl
  have hp3 : pickOne (df ++ [("date", X)]) 3 = .ok (qn, qvals) :=
    pickOne_nonneg _ 3 _ (by norm_num) rfl
  have hiloc : ilocCols (df ++ [("date", X)]) [-1, 2, 3] =
      .ok [("date", X), (vn, vvals), (qn, qvals)] := by
    simp only [ilocCols, hp1, hp2, hp3]
  have hren : renameCols [("date", X), (vn, vvals), (qn, qvals)]
      ["date", p, "quality"] =
      .ok [("date", X), (p, vvals), ("quality", qvals)] := by
    simp [renameCols]
  have hget : dfGet [("date", X), (p, vvals), ("quality", qvals)] p =
      .ok vvals := by
    rw [dfGet_cons_of_ne _ _ _ _ hdp, dfGet_cons_eq]
  have hsc : setCol [("date", X), (p, vvals), ("quality", qvals)] p fv =
      [("date", X), (p, fv), ("quality", qvals)] := by
    rw [setCol_cons_of_ne _ _ _ _ _ hdp, setCol_cons_eq]
  have hast : astypeFloat [("date", X), (p, vvals), ("quality", qvals)] p =
      .ok [("date", X), (p, fv), ("quality", qvals)] := by
    unfold astypeFloat
    simp only [hget, hv, hsc]
  unfold format_archived_dataframe
  rw [if_pos hp]
  simp only [hgD, hgT, hd, ht, hset, hiloc, hren, hast]

/-- Claim C4 witness: a one-row Group-1 archive table with Datum
2020-01-01, Tid (UTC) 06:00:00, value 1.5 and quality G normalizes to the
three columns date, TemperaturePast1h, quality with the combined UTC
instant. -/
theorem format_archived_group1_witness :
    "TemperaturePast1h" ∈ ARCHIVED_PARAMETER_GROUP1 ∧
    "date" ∉ ((("Datum", [Cell.str "2020-01-01"]) ::
      ("Tid (UTC)", [Cell.str "06:00:00"]) ::
      ("Lufttemperatur", [Cell.str "1.5"]) ::
      ("Kvalitet", [Cell.str "G"]) :: []).map Prod.fst) ∧
    traverseInts toDatetimeCell [Cell.str "2020-01-01"] =
      some [1577836800000000] ∧
    traverseInts toTimedeltaCell [Cell.str "06:00:00"] =
      some [21600000000] ∧
    traverseCells strictFloatCell [Cell.str "1.5"] =
      some [Cell.num (ratOfParts (1, 1, 5, 1, 0))] ∧
    format_archived_dataframe
        (("Datum", [Cell.str "2020-01-01"]) ::
          ("Tid (UTC)", [Cell.str "06:00:00"]) ::
          ("Lufttemperatur", [Cell.str "1.5"]) ::
          ("Kvalitet", [Cell.str "G"]) :: []) "TemperaturePast1h" =
      .ok [("date", List.zipWith (fun a b => Cell.instant (a + b))
          [1577836800000000] [21600000000]),
        ("TemperaturePast1h", [Cell.num (ratOfParts (1, 1, 5, 1, 0))]),
        ("quality", [Cell.str "G"])] := by
  have hpp : pyParts (trimWs "1.5".toList) = some (1, 1, 5, 1, 0) := by
    decide
  have hpf : pyFloat "1.5" = some (ratOfParts (1, 1, 5, 1, 0)) := by
    rw [pyFloat, hpp]
    rfl
  have hv : traverseCells strictFloatCell [Cell.str "1.5"] =
      some [Cell.num (ratOfParts (1, 1, 5, 1, 0))] := by
    simp only [traverseCells, strictFloatCell, hpf, Option.map_some']
  refine ⟨by decide, by decide, by decide, by decide, hv, ?_⟩
  exact format_archived_group1_spec "TemperaturePast1h" (by decide)
    [Cell.str "2020-01-01"] [Cell.str "06:00:00"] [Cell.str "1.5"]
    [Cell.str "G"] "Lufttemperatur" "Kvalitet" []
    (by decide) [1577836800000000] [21600000000] (by decide) (by decide)
    [Cell.num (ratOfParts (1, 1, 5, 1, 0))] hv

/-- Claim C5: for a JSON record table of the group-2 shape (two leading
columns, then ref, value and quality columns, possibly followed by further
columns, and no column named date) and a group-2 parameter,
json_to_dataframe reads the timestamp from the ref column (not a date
column), interprets it as a UTC instant, and keeps exactly the last
(the appended date), 4th and 5th columns in positional order. -/
theorem json_to_dataframe_group2_spec
    (p : String) (hp : p ∈ ARCHIVED_PARAMETER_GROUP2)
    (n0 n1 qn : String) (c0 c1 refs vals qvals : List Cell)
    (rest : DataFrame)
    (h0r : n0 ≠ "ref") (h1r : n1 ≠ "ref")
    (h0v : n0 ≠ "value") (h1v : n1 ≠ "value")
    (hdate : "date" ∉ ((n0, c0) :: (n1, c1) :: ("ref", refs) ::
      ("value", vals) :: (qn, qvals) :: rest).map Prod.fst)
    (ds : List Int) (hr : traverseInts toDatetimeCell refs = some ds)
    (fv : List Cell) (hv : traverseCells strictFloatCell vals = some fv) :
    json_to_dataframe ((n0, c0) :: (n1, c1) :: ("ref", refs) ::
        ("value", vals) :: (qn, qvals) :: rest) p =
      .ok [("date", ds.map Cell.instant), ("value", fv), (qn, qvals)] := by
  set df : DataFrame := (n0, c0) :: (n1, c1) :: ("ref", refs) ::
    ("value", vals) :: (qn, qvals) :: rest with hdf
  set X : List Cell := ds.map Cell.instant with hX
  have hgR : dfGet df "ref" = .ok refs := by
    rw [hdf, dfGet_cons_of_ne _ _ _ _ h0r, dfGet_cons_of_ne _ _ _ _ h1r,
      dfGet_cons_eq]
  have hset : setCol df "date" X = df ++ [("date", X)] :=
    setCol_of_not_mem df "date" X hdate
  have happ : df ++ [("date", X)] = (n0, c0) :: (n1, c1) :: ("ref", refs) ::
      ("value", vals) :: (qn, qvals) :: (rest ++ [("date", X)]) := by
    simp [hdf]
  have hgV : dfGet (df ++ [("date", X)]) "value" = .ok vals := by
    rw [happ, dfGet_cons_of_ne _ _ _ _ h0v, dfGet_cons_of_ne _ _ _ _ h1v,
      dfGet_cons_of_ne _ _ _ _ (by decide : "ref" ≠ "value"), dfGet_cons_eq]
  have hscv : setCol (df ++ [("date", X)]) "value" fv =
      ((n0, c0) :: (n1, c1) :: ("ref", refs) :: ("value", fv) ::
        (qn, qvals) :: rest) ++ [("date", X)] := by
    rw [happ, setCol_cons_of_ne _ _ _ _ _ h0v,
      setCol_cons_of_ne _ _ _ _ _ h1v,
      setCol_cons_of_ne _ _ _ _ _ (by decide : "ref" ≠ "value"),
      setCol_cons_eq]
    simp
  have hp1 : pickOne (((n0, c0) :: (n1, c1) :: ("ref", refs) ::
      ("value", fv) :: (qn, qvals) :: rest) ++ [("date", X)]) (-1) =
      .ok ("date", X) := pickOne_neg_one _ _
  have hp2 : pickOne (((n0, c0) :: (n1, c1) :: ("ref", refs) ::
      ("value", fv) :: (qn, qvals) :: rest) ++ [("date", X)]) 3 =
      .ok ("value", fv) := pickOne_nonneg _ 3 _ (by norm_num) rfl
  have hp3 : pickOne (((n0, c0) :: (n1, c1) :: ("ref", refs) ::
      ("value", fv) :: (qn, qvals) :: rest) ++ [("date", X)]) 4 =
      .ok (qn, qvals) := pickOne_nonneg _ 4 _ (by norm_num) rfl
  have hiloc : ilocCols (((n0, c0) :: (n1, c1) :: ("ref", refs) ::
      ("value", fv) :: (qn, qvals) :: rest) ++ [("date", X)]) [-1, 3, 4] =
      .ok [("date", X), ("value", fv), (qn, qvals)] := by
    simp only [ilocCols, hp1, hp2, hp3]
  unfold json_to_dataframe
  rw [if_pos hp]
  simp only [hgR, hr, hset, hgV, hv, hscv, hiloc]

/-- Claim C5 witness: a one-row group-2 JSON table with columns from, to,
ref, value, quality; the timestamp is read from ref as a UTC instant and
the result keeps the last, 4th and 5th columns. -/
theorem json_to_dataframe_group2_witness :
    "PrecipPast24hAt06" ∈ ARCHIVED_PARAMETER_GROUP2 ∧
    "date" ∉ ((("from", [Cell.str "a"]) :: ("to", [Cell.str "b"]) ::
      ("ref", [Cell.str "2020-01-01"]) :: ("value", [Cell.str "1.5"]) ::
      ("quality", [Cell.str "G"]) :: []).map Prod.fst) ∧
    traverseInts toDatetimeCell [Cell.str "2020-01-01"] =
      some [1577836800000000] ∧
    traverseCells strictFloatCell [Cell.str "1.5"] =
      some [Cell.num (ratOfParts (1, 1, 5, 1, 0))] ∧
    json_to_dataframe
        (("from", [Cell.str "a"]) :: ("to", [Cell.str "b"]) ::
          ("ref", [Cell.str "2020-01-01"]) :: ("value", [Cell.str "1.5"]) ::
          ("quality", [Cell.str "G"]) :: []) "PrecipPast24hAt06" =
      .ok [("date", List.map Cell.instant [1577836800000000]),
        ("value", [Cell.num (ratOfParts (1, 1, 5, 1, 0))]),
        ("quality", [Cell.str "G"])] := by
  have hpp : pyParts (trimWs "1.5".toList) = some (1, 1, 5, 1, 0) := by
    decide
  have hpf : pyFloat "1.5" = some (ratOfParts (1, 1, 5, 1, 0)) := by
    rw [pyFloat, hpp]
    rfl
  have hv : traverseCells strictFloatCell [Cell.str "1.5"] =
      some [Cell.num (ratOfParts (1, 1, 5, 1, 0))] := by
    simp only [traverseCells, strictFloatCell, hpf, Option.map_some']
  refine ⟨by decide, by decide, by decide, hv, ?_⟩
  exact json_to_dataframe_group2_spec "PrecipPast24hAt06" (by decide)
    "from" "to" "quality" [Cell.str "a"] [Cell.str "b"]
    [Cell.str "2020-01-01"] [Cell.str "1.5"] [Cell.str "G"] []
    (by decide) (by decide) (by decide) (by decide) (by decide)
    [1577836800000000] (by decide)
    [Cell.num (ratOfParts (1, 1, 5, 1, 0))] hv

/-- Claim C7 counterexample: on the JSON normalization path
(json_to_dataframe) a record whose value field is the non-numeric string
N/A is an error — the value column is coerced strictly with astype(float)
— so the original string is not returned in the output. -/
theorem json_to_dataframe_strict_counterexample :
    json_to_dataframe
        [("date", [Cell.num 0]), ("value", [Cell.str "N/A"]),
          ("quality", [Cell.str "G"])] "TemperaturePast1h" =
      .error .parseError := by
  have hnotg2 : "TemperaturePast1h" ∉ ARCHIVED_PARAMETER_GROUP2 := by decide
  have hden : (0 : ℚ).den = 1 := rfl
  have htd : traverseInts toDatetimeMsCell [Cell.num 0] =
      some [(0 : ℚ).num * 1000] := by
    simp [traverseInts, toDatetimeMsCell, hden]
  have hNA : pyFloat "N/A" = none := by decide
  have hv : traverseCells strictFloatCell [Cell.str "N/A"] = none := by
    simp [traverseCells, strictFloatCell, hNA]
  have hsc : setCol ([("date", [Cell.num 0]), ("value", [Cell.str "N/A"]),
      ("quality", [Cell.str "G"])] : DataFrame) "date"
      (List.map Cell.instant [(0 : ℚ).num * 1000]) =
      [("date", List.map Cell.instant [(0 : ℚ).num * 1000]),
        ("value", [Cell.str "N/A"]), ("quality", [Cell.str "G"])] :=
    setCol_cons_eq _ _ _ _
  have hgv : dfGet ([("date", List.map Cell.instant [(0 : ℚ).num * 1000]),
      ("value", [Cell.str "N/A"]), ("quality", [Cell.str "G"])] : DataFrame)
      "value" = .ok [Cell.str "N/A"] := by
    rw [dfGet_cons_of_ne _ _ _ _ (by decide : "date" ≠ "value"), dfGet_cons_eq]
  unfold json_to_dataframe
  rw [if_neg hnotg2, dfGet_cons_eq]
  simp only [htd, hsc, hgv, hv]

/-- Claim C7 amended: the lenient coercion lives on the latest-observations
JSON path: in get_latest_observations, a record whose value is a
non-numeric string is not an error — the original string is placed in the
output record via try_parse_float (while json_to_dataframe coerces
strictly and errors on such values). -/
theorem get_latest_observations_lenient_spec
    (pid : Int) (recs : List StationData) (x : StationData) (hx : x ∈ recs)
    (vl : List ObsValue) (hvl : x.value = some vl)
    (v : ObsValue) (hv : v ∈ vl) (s : String) (hs : v.value = .str s)
    (hf : pyFloat s = none) :
    (⟨pid, v.date, PyScalar.str s, x.key⟩ : LatestObs) ∈
      get_latest_observations pid recs := by
  have hrec : (⟨pid, v.date, try_parse_float v.value, x.key⟩ : LatestObs) =
      ⟨pid, v.date, PyScalar.str s, x.key⟩ := by
    rw [hs]
    simp [try_parse_float, hf]
  have hacc : ∀ (rs : List StationData) (acc : List LatestObs)
      (y : LatestObs), y ∈ acc →
      y ∈ rs.foldl (fun vals z =>
        match z.value with
        | none => vals
        | some vl2 => vals ++ vl2.map (fun w =>
            ⟨pid, w.date, try_parse_float w.value, z.key⟩)) acc := by
    intro rs
    induction rs with
    | nil => exact fun acc y hy => hy
    | cons r rs ih =>
      intro acc y hy
      apply ih
      cases hrv : r.value with
      | none => simpa [hrv] using hy
      | some vl2 =>
        simp only [hrv]
        exact List.mem_append_left _ hy
  suffices h : ∀ (rs : List StationData) (acc : List LatestObs), x ∈ rs →
      (⟨pid, v.date, try_parse_float v.value, x.key⟩ : LatestObs) ∈
        rs.foldl (fun vals z =>
          match z.value with
          | none => vals
          | some vl2 => vals ++ vl2.map (fun w =>
              ⟨pid, w.date, try_parse_float w.value, z.key⟩)) acc by
    have h2 := h recs [] hx
    rw [hrec] at h2
    exact h2
  intro rs
  induction rs with
  | nil => intro acc h2; cases h2
  | cons r rs ih =>
    intro acc hmem
    rcases List.mem_cons.mp hmem with heq | hm
    · apply hacc rs
      rw [← heq]
      simp only [hvl]
      exact List.mem_append_right _ (List.mem_map_of_mem _ hv)
    · exact ih _ hm

/-- Claim C7 amended witness: a station s1 with one value record holding
the non-numeric string N/A at timestamp 100 yields an output record that
carries the original string N/A. -/
theorem get_latest_observations_lenient_witness :
    (⟨"s1", some [⟨100, PyScalar.str "N/A"⟩]⟩ : StationData) ∈
      [(⟨"s1", some [⟨100, PyScalar.str "N/A"⟩]⟩ : StationData)] ∧
    (⟨"s1", some [⟨100, PyScalar.str "N/A"⟩]⟩ : StationData).value =
      some [⟨100, PyScalar.str "N/A"⟩] ∧
    (⟨100, PyScalar.str "N/A"⟩ : ObsValue) ∈
      [(⟨100, PyScalar.str "N/A"⟩ : ObsValue)] ∧
    (⟨100, PyScalar.str "N/A"⟩ : ObsValue).value = PyScalar.str "N/A" ∧
    pyFloat "N/A" = none ∧
    (⟨1, 100, PyScalar.str "N/A", "s1"⟩ : LatestObs) ∈
      get_latest_observations 1
        [⟨"s1", some [⟨100, PyScalar.str "N/A"⟩]⟩] := by
  refine ⟨by decide, rfl, by decide, rfl, by decide, ?_⟩
  exact get_latest_observations_lenient_spec 1
    [⟨"s1", some [⟨100, PyScalar.str "N/A"⟩]⟩]
    ⟨"s1", some [⟨100, PyScalar.str "N/A"⟩]⟩ (by decide)
    [⟨100, PyScalar.str "N/A"⟩] rfl
    ⟨100, PyScalar.str "N/A"⟩ (by decide) "N/A" rfl (by decide)
